import Mathlib

/-!
Shallow embedding of the media_api file-storage service
(`app/main.py`, `app/models/file.py`, `app/database.py`).

The HTTP handlers are modelled as pure functions over an explicit
application state holding the two external stores:
the GridFS blob bucket and the `gridfs_files` record collection,
both modelled as Lean lists in insertion order.
FastAPI query-parameter validation (`Query(..., ge=..., le=...)`),
Mongo query evaluation (`$regex`, `$in`, `$set`, skip/limit) and
pydantic parsing of optional request fields are embedded per their
documented semantics, since the handlers delegate to them.
-/

set_option autoImplicit false

deriving instance DecidableEq for Except

namespace MediaApi

/-- `FileStatus` string enum from `app/models/file.py`. -/
inductive FileStatus where
  | ACTIVE
  | FLAGGED
  | DELETED
  | PROCESSING
  | PENDING_REVIEW
deriving DecidableEq, Repr

/-- The `.value` of each `FileStatus` member (its string payload). -/
def FileStatus.value : FileStatus → String
  | .ACTIVE => "active"
  | .FLAGGED => "flagged"
  | .DELETED => "deleted"
  | .PROCESSING => "processing"
  | .PENDING_REVIEW => "pending_review"

/-- `GridFSFile` document from `app/models/file.py`: one record of the
`gridfs_files` collection. `upload_date` (a datetime) is modelled as `Nat`;
the free-form `metadata` dict as an association list. -/
structure GridFSFile where
  id : String
  filename : String
  content_type : String
  upload_date : Nat
  file_id : String
  owner_id : Option String
  status : FileStatus
  file_size : Option Nat
  tags : List String
  description : Option String
  metadata : List (String × String)
deriving DecidableEq, Repr

/-- Metadata attached to a GridFS blob at `upload_from_stream` (main.py 96-101). -/
structure BlobMetadata where
  content_type : Option String
  original_name : String
  owner_id : Option String
  file_size : Nat
deriving DecidableEq, Repr

/-- A stored GridFS blob (file document of the bucket): `_id`, `filename`,
`metadata`, `length`. The chunk contents are modelled as a byte list. -/
structure GridFSBlob where
  id : String
  filename : String
  metadata : Option BlobMetadata
  length : Nat
  content : List Nat
deriving DecidableEq, Repr

/-- The two external stores the handlers operate on: the GridFS bucket and
the `gridfs_files` collection, each in insertion order. -/
structure AppState where
  blobs : List GridFSBlob
  records : List GridFSFile
deriving DecidableEq, Repr

/-- `FileListResponse` pydantic response model (main.py 26-35). -/
structure FileListResponse where
  id : String
  filename : String
  content_type : Option String
  upload_date : Nat
  file_size : Option Nat
  status : FileStatus
  owner_id : Option String
  tags : List String
  description : Option String
deriving DecidableEq, Repr

/-- `FileUploadResponse` pydantic response model (main.py 18-23). -/
structure FileUploadResponse where
  file_id : String
  filename : String
  file_size : Nat
  status : String
  owner_id : Option String
deriving DecidableEq, Repr

/-- `FileUpdateRequest` pydantic request model (main.py 38-41): all three
fields are `Optional[...] = None`, so an absent JSON field and an explicit
JSON `null` both parse to `none`. -/
structure FileUpdateRequest where
  status : Option FileStatus
  tags : Option (List String)
  description : Option String
deriving DecidableEq, Repr

/-- Errors surfaced by the handlers: `HTTPException(code, msg)` raised in the
handler body, or the 422 error FastAPI returns when a query parameter fails
its `Query(..., ge=..., le=...)` validation. -/
inductive ApiError where
  | httpError (code : Nat) (msg : String)
  | validationError
deriving DecidableEq, Repr

/-- `bson.ObjectId.is_valid` on a string: exactly 24 hexadecimal digits. -/
def isValidObjectId (s : String) : Bool :=
  s.length == 24 && s.data.all (fun c => c.isDigit || ('a' ≤ c && c ≤ 'f') || ('A' ≤ c && c ≤ 'F'))

/-- Python `s.startswith(pre)` for a single string argument:
`pre` is a literal prefix of `s`. -/
def startswith (s pre : String) : Bool :=
  pre.data.isPrefixOf s.data

/-- Python `str.split(",")`: split at every comma (single-character
separator, no merging of adjacent separators). -/
def splitOnComma : List Char → List (List Char)
  | [] => [[]]
  | c :: cs =>
    let r := splitOnComma cs
    if c == ',' then [] :: r
    else (c :: r.headD []) :: r.tail

/-- Whitespace removed by Python `str.strip()` (the ASCII fragment: space,
tab, newline, carriage return, vertical tab, form feed). -/
def isStripChar (c : Char) : Bool :=
  c == ' ' || c == '\t' || c == '\n' || c == '\r' || c == Char.ofNat 11 || c == Char.ofNat 12

/-- Python `str.strip()`: drop leading and trailing whitespace. -/
def pyStrip (l : List Char) : List Char :=
  ((l.dropWhile isStripChar).reverse.dropWhile isStripChar).reverse

/-- Tag parsing used by upload (main.py 90) and list (main.py 314):
`[tag.strip() for tag in tags.split(",") if tag.strip()]`. -/
def parseTags (s : String) : List String :=
  (((splitOnComma s.data).map pyStrip).filter (fun t => !t.isEmpty)).map String.mk

/-- Building a `FileListResponse` from a record (main.py 210-220 etc.). -/
def toListResponse (r : GridFSFile) : FileListResponse :=
  { id := r.id
    filename := r.filename
    content_type := some r.content_type
    upload_date := r.upload_date
    file_size := r.file_size
    status := r.status
    owner_id := r.owner_id
    tags := r.tags
    description := r.description }

/-- Query parameters of `GET /files` (main.py 290-296) with their FastAPI
defaults. `limit` and `skip` are the raw integers supplied by the client;
their `ge`/`le` bounds are enforced in `list_files`. -/
structure ListQuery where
  owner_id : Option String := none
  status : Option FileStatus := none
  content_type : Option String := none
  tags : Option String := none
  limit : Int := 50
  skip : Int := 0
deriving DecidableEq, Repr

/-- One pattern character of the anchored `$regex` against one subject
character, under PCRE option `i` (ASCII case folding): `.` matches any
character but a newline; any other character matches itself case-insensitively.
Models MongoDB `$regex` semantics for the metacharacter-free-plus-dot
fragment the theorems below exercise. -/
def ciRegexCharMatches (p c : Char) : Bool :=
  if p == '.' then c != '\n' else p.toLower == c.toLower

/-- Whether the regex `^` ++ pattern (as a character list) matches the subject:
anchored at the start, the rest of the subject unconstrained. -/
def ciRegexAcceptsFrom : List Char → List Char → Bool
  | [], _ => true
  | _ :: _, [] => false
  | p :: ps, c :: cs => ciRegexCharMatches p c && ciRegexAcceptsFrom ps cs

/-- The PCRE metacharacters. A filter parameter avoiding all of them is
matched by the anchored regex as a literal (case-insensitive) prefix; a
parameter containing one is not matched literally. -/
def isRegexMeta (c : Char) : Bool :=
  c == '\\' || c == '^' || c == '$' || c == '.' || c == '|' || c == '?' || c == '*' ||
    c == '+' || c == '(' || c == ')' || c == '[' || c == ']' ||
    c == Char.ofNat 123 || c == Char.ofNat 125

/-- The `owner_id` filter clause (main.py 303-304): `if owner_id:` — applied
only for a present, non-empty value; exact match on the field. -/
def matchesOwner (q : ListQuery) (r : GridFSFile) : Bool :=
  match q.owner_id with
  | none => true
  | some o => if o.data.isEmpty then true else r.owner_id == some o

/-- The `status` filter clause (main.py 306-307): every `FileStatus` member is
a non-empty string, so `if status:` is simply presence. -/
def matchesStatus (q : ListQuery) (r : GridFSFile) : Bool :=
  match q.status with
  | none => true
  | some s => r.status == s

/-- The `content_type` filter clause (main.py 309-310):
`{"$regex": f"^{content_type}", "$options": "i"}` — the raw parameter is
interpolated unescaped into an anchored case-insensitive regex. -/
def matchesContentType (q : ListQuery) (r : GridFSFile) : Bool :=
  match q.content_type with
  | none => true
  | some p => if p.data.isEmpty then true else ciRegexAcceptsFrom p.data r.content_type.data

/-- The `tags` filter clause (main.py 312-316): comma-split, trimmed, empties
dropped; the `$in` clause on the array field `tags` matches records having at
least one of the listed tags; `if tag_list:` drops the clause when the parsed
list is empty. -/
def matchesTags (q : ListQuery) (r : GridFSFile) : Bool :=
  match q.tags with
  | none => true
  | some t =>
    if t.data.isEmpty then true
    else
      let tag_list := parseTags t
      if tag_list.isEmpty then true
      else r.tags.any (fun tag => tag_list.contains tag)

/-- The full Mongo filter document built by `list_files` (main.py 300-316),
evaluated on one record. -/
def matchesQuery (q : ListQuery) (r : GridFSFile) : Bool :=
  matchesOwner q r && matchesStatus q r && matchesContentType q r && matchesTags q r

/-- The records of the collection satisfying the filter document, in
collection order (the `GridFSFile.find(filter_query)` cursor before
skip/limit, main.py 319). -/
def filteredRecords (db : List GridFSFile) (q : ListQuery) : List GridFSFile :=
  db.filter (fun r => matchesQuery q r)

/-- Handler of `GET /files` (main.py 289-337). FastAPI first validates
`limit` against `ge=1, le=1000` and `skip` against `ge=0`, rejecting the
request with a 422 validation error on violation; the handler then runs the
filtered query with `.skip(skip).limit(limit)` and maps the records to
`FileListResponse`. -/
def list_files (db : List GridFSFile) (q : ListQuery) :
    Except ApiError (List FileListResponse) :=
  if q.limit < 1 || 1000 < q.limit || q.skip < 0 then
    Except.error ApiError.validationError
  else
    Except.ok ((((filteredRecords db q).drop q.skip.toNat).take q.limit.toNat).map toListResponse)

/-- Python truthiness fallback `x or default` for an optional string:
both `None` and `""` fall back to the default (main.py 78, 145). -/
def orDefault (x : Option String) (d : String) : String :=
  match x with
  | none => d
  | some s => if s.data.isEmpty then d else s

/-- Handler of `POST /upload` (main.py 66-125). The GridFS bucket assigns a
fresh blob id and the record store assigns a fresh document id; both are
passed in explicitly (`blobId`, `recordId`), as is the creation timestamp.
Returns the response (or the 400 error raised before any store access) paired
with the state after the handler ran. -/
def upload_file (st : AppState) (blobId recordId : String) (uploadDate : Nat)
    (contentType : Option String) (filename0 : Option String) (content : List Nat)
    (owner_id tags description : Option String) :
    Except ApiError FileUploadResponse × AppState :=
  let ctOk := match contentType with
    | none => false
    | some ct => !ct.data.isEmpty && (startswith ct "image/" || startswith ct "video/")
  if !ctOk then
    (Except.error (ApiError.httpError 400 "Only images and videos are allowed"), st)
  else
    let ct := contentType.getD ""
    let filename := orDefault filename0 "unnamed_file"
    let file_size := content.length
    let tag_list := match tags with
      | none => []
      | some t => if t.data.isEmpty then [] else parseTags t
    let blob : GridFSBlob :=
      { id := blobId
        filename := filename
        metadata := some
          { content_type := some ct
            original_name := filename
            owner_id := owner_id
            file_size := file_size }
        length := file_size
        content := content }
    let record : GridFSFile :=
      { id := recordId
        filename := filename
        content_type := ct
        upload_date := uploadDate
        file_id := blobId
        owner_id := owner_id
        status := FileStatus.ACTIVE
        file_size := some file_size
        tags := tag_list
        description := description
        metadata := [("uploaded_by", "api"), ("source", "upload_endpoint")] }
    (Except.ok
      { file_id := blobId
        filename := filename
        file_size := file_size
        status := FileStatus.ACTIVE.value
        owner_id := owner_id },
      { blobs := st.blobs ++ [blob], records := st.records ++ [record] })

/-- `urllib.parse.quote` treats ASCII letters, digits, `_`, `.`, `-`, `~` and
(default `safe`) `/` as safe; every other byte is percent-encoded. -/
def isSafeByte (n : Nat) : Bool :=
  (65 ≤ n && n ≤ 90) || (97 ≤ n && n ≤ 122) || (48 ≤ n && n ≤ 57) ||
    n == 95 || n == 46 || n == 45 || n == 126 || n == 47

/-- Uppercase hexadecimal digit of a value below 16. -/
def hexDigit (n : Nat) : Char :=
  if n < 10 then Char.ofNat (48 + n) else Char.ofNat (55 + n)

/-- One byte rendered by `urllib.parse.quote`: itself when safe, `%XX`
(uppercase hex) otherwise. -/
def quoteByte (n : Nat) : String :=
  if isSafeByte n then String.singleton (Char.ofNat n)
  else String.singleton '%' ++ String.singleton (hexDigit (n / 16 % 16)) ++ String.singleton (hexDigit (n % 16))

/-- UTF-8 encoding of one character (`str.encode("utf-8")`), as a byte list. -/
def utf8Bytes (c : Char) : List Nat :=
  let n := c.toNat
  if n < 128 then [n]
  else if n < 2048 then [192 + n / 64, 128 + n % 64]
  else if n < 65536 then [224 + n / 4096, 128 + n / 64 % 64, 128 + n % 64]
  else [240 + n / 262144, 128 + n / 4096 % 64, 128 + n / 64 % 64, 128 + n % 64]

/-- `quote(filename.encode("utf-8"))` (main.py 186). -/
def percentEncodeUTF8 (s : String) : String :=
  String.join ((s.data.flatMap utf8Bytes).map quoteByte)

/-- Content-Disposition construction (main.py 178-187):
`filename.encode("ascii")` succeeds iff every character is ASCII, in which case
the filename passes through unescaped; otherwise the RFC 5987 form is used. -/
def contentDisposition (filename : String) : String :=
  if filename.data.all (fun c => c.toNat < 128) then
    "attachment; filename=" ++ filename
  else
    "attachment; filename*=UTF-8''" ++ percentEncodeUTF8 filename

/-- The observable parts of the `StreamingResponse` of `GET /files/{id}`
(main.py 189-196): response headers and media type. -/
structure FileDownloadResponse where
  content_disposition : String
  accept_ranges : String
  content_length : Nat
  cache_control : String
  media_type : String
deriving DecidableEq, Repr

/-- Handler of `GET /files/{id}` (main.py 128-196): validates the id, looks the
file document up in the GridFS bucket, opens the download stream and answers
with the streaming headers. The 30-second `open_download_stream` timeout (504)
and transport errors are external nondeterminism not represented here: an
existing blob streams successfully. -/
def get_file (st : AppState) (file_id : String) :
    Except ApiError FileDownloadResponse :=
  if !isValidObjectId file_id then
    Except.error (ApiError.httpError 400 "Invalid file ID")
  else
    match st.blobs.find? (fun b => b.id == file_id) with
    | none => Except.error (ApiError.httpError 404 "File Not Found in GridFS")
    | some b =>
      let filename := orDefault (some b.filename) "file"
      let content_type := match b.metadata with
        | some m => m.content_type.getD "video/mp4"
        | none => "video/mp4"
      Except.ok
        { content_disposition := contentDisposition filename
          accept_ranges := "bytes"
          content_length := b.length
          cache_control := "public, max-age=3600"
          media_type := content_type }

/-- `GridFSFile.find_one({"file_id": file_id})`: first record of the
collection whose `file_id` field equals the given string. -/
def findRecord (st : AppState) (file_id : String) : Option GridFSFile :=
  st.records.find? (fun r => r.file_id == file_id)

/-- Handler of `GET /files/{id}/info` (main.py 199-220). -/
def get_file_info (st : AppState) (file_id : String) :
    Except ApiError FileListResponse :=
  if !isValidObjectId file_id then
    Except.error (ApiError.httpError 400 "Invalid file ID")
  else
    match findRecord st file_id with
    | none => Except.error (ApiError.httpError 404 "File not found")
    | some r => Except.ok (toListResponse r)

/-- The `$set` document built by `update_file` (main.py 234-241), applied to
the found record: only fields that are not `None` are written. -/
def applyUpdate (u : FileUpdateRequest) (r : GridFSFile) : GridFSFile :=
  { r with
    status := u.status.getD r.status
    tags := u.tags.getD r.tags
    description := match u.description with
      | some d => some d
      | none => r.description }

/-- Replace the first element satisfying `p` by its image under `f`
(a single-document `update` on the found record). -/
def updateFirst {α : Type} (p : α → Bool) (f : α → α) : List α → List α
  | [] => []
  | x :: xs => if p x then f x :: xs else x :: updateFirst p f xs

/-- Remove the first element satisfying `p` (a single-document `delete`). -/
def removeFirst {α : Type} (p : α → Bool) : List α → List α
  | [] => []
  | x :: xs => if p x then xs else x :: removeFirst p xs

/-- Handler of `PUT /files/{id}` (main.py 223-258): find the record, `$set`
exactly the supplied fields, refresh, and answer with the updated record. -/
def update_file (st : AppState) (file_id : String) (u : FileUpdateRequest) :
    Except ApiError FileListResponse × AppState :=
  if !isValidObjectId file_id then
    (Except.error (ApiError.httpError 400 "Invalid file ID"), st)
  else
    match findRecord st file_id with
    | none => (Except.error (ApiError.httpError 404 "File not found"), st)
    | some r =>
      let r' := applyUpdate u r
      (Except.ok (toListResponse r'),
        { st with records := updateFirst (fun x => x.file_id == file_id) (fun x => applyUpdate u x) st.records })

/-- Response body of `DELETE /files/{id}` (main.py 282, 286). -/
structure DeleteResponse where
  message : String
  file_id : String
  status : Option String
deriving DecidableEq, Repr

/-- Handler of `DELETE /files/{id}` (main.py 261-286). `blobDeleteOk` models
whether the external `gridfs_bucket.delete` call succeeds; on failure the
exception is caught and logged (main.py 275-278) and the handler proceeds to
delete the record regardless. Soft delete (`permanent = false`) only `$set`s
`status = deleted` on the found record. -/
def delete_file (st : AppState) (file_id : String) (permanent : Bool)
    (blobDeleteOk : Bool) : Except ApiError DeleteResponse × AppState :=
  if !isValidObjectId file_id then
    (Except.error (ApiError.httpError 400 "Invalid file ID"), st)
  else
    match findRecord st file_id with
    | none => (Except.error (ApiError.httpError 404 "File not found"), st)
    | some _ =>
      if permanent then
        let blobs' := if blobDeleteOk then st.blobs.filter (fun b => !(b.id == file_id)) else st.blobs
        (Except.ok { message := "File permanently deleted", file_id := file_id, status := none },
          { blobs := blobs', records := removeFirst (fun r => r.file_id == file_id) st.records })
      else
        (Except.ok { message := "File marked as deleted", file_id := file_id, status := some "deleted" },
          { st with records := (updateFirst (fun r => r.file_id == file_id)
              (fun r => { r with status := FileStatus.DELETED }) st.records) })

/-! ## Sample data for concrete witnesses and counterexamples -/

/-- A valid ObjectId hex string used by the concrete scenarios. -/
def sampleId : String := "0123456789abcdef01234567"

/-- A stored record used by the concrete scenarios. -/
def sampleRecord : GridFSFile :=
  { id := "rec1"
    filename := "photo.png"
    content_type := "image/png"
    upload_date := 7
    file_id := sampleId
    owner_id := some "alice"
    status := FileStatus.ACTIVE
    file_size := some 10
    tags := ["a"]
    description := some "d"
    metadata := [] }

/-- The blob belonging to `sampleRecord`. -/
def sampleBlob : GridFSBlob :=
  { id := sampleId
    filename := "photo.png"
    metadata := some
      { content_type := some "image/png"
        original_name := "photo.png"
        owner_id := some "alice"
        file_size := 10 }
    length := 10
    content := [1, 2, 3, 4, 5, 6, 7, 8, 9, 10] }

/-- A record whose `content_type` is the two-character string `"ab"`, used to
exercise the regex `.` metacharacter in the contentTypePrefix filter. -/
def dotRecord : GridFSFile :=
  { sampleRecord with id := "rec2", content_type := "ab" }

/-- A soft-deleted record, used for the default-listing scenario. -/
def deletedRecord : GridFSFile :=
  { sampleRecord with id := "rec3", status := FileStatus.DELETED }

/-- A blob with a non-ASCII filename, for the RFC 5987 download scenario. -/
def accentBlob : GridFSBlob :=
  { sampleBlob with filename := "café.png" }

/-- The update request of the spec scenario: only `tags` supplied. -/
def tagsOnlyUpdate : FileUpdateRequest :=
  { status := none, tags := some ["x", "y"], description := none }

/-! ## C1: `limit` handling of `GET /files` -/

/-- C1 (counterexample): a List request with `limit = 2000` is not clamped to
1000 results — FastAPI rejects it with a validation error, even though the
stored record would have matched the (empty) filters. -/
theorem list_files_limit_2000_rejected :
    list_files [sampleRecord] (ListQuery.mk none none none none 2000 0) =
      Except.error ApiError.validationError ∧
    matchesQuery (ListQuery.mk none none none none 2000 0) sampleRecord = true := by
  decide

/-- C1 (amended): a `limit` outside `[1, 1000]` makes `GET /files` fail with a
validation error (it is rejected, not clamped); every successful List returns
at most `limit ≤ 1000` results; the default of the `limit` parameter is 50. -/
theorem list_files_limit_validated (db : List GridFSFile) (q : ListQuery) :
    ((q.limit < 1 ∨ 1000 < q.limit) → list_files db q = Except.error ApiError.validationError) ∧
    (∀ res, list_files db q = Except.ok res → res.length ≤ q.limit.toNat ∧ res.length ≤ 1000) ∧
    ({} : ListQuery).limit = 50 := by
  refine ⟨?_, ?_, rfl⟩
  · intro h
    have hc : (q.limit < 1 || 1000 < q.limit || q.skip < 0) = true := by
      rcases h with h | h <;> simp [h]
    simp only [list_files, hc, if_true]
  · intro res hres
    unfold list_files at hres
    split at hres
    · cases hres
    · rename_i hcond
      simp only [Bool.or_eq_true, decide_eq_true_eq, not_or] at hcond
      have hres' : (((filteredRecords db q).drop q.skip.toNat).take q.limit.toNat).map toListResponse = res :=
        by injection hres
      subst hres'
      constructor
      · simp only [List.length_map]
        exact List.length_take_le q.limit.toNat ((filteredRecords db q).drop q.skip.toNat)
      · have h1000 : q.limit ≤ 1000 := by omega
        have : q.limit.toNat ≤ 1000 := by omega
        have hlen := List.length_take_le q.limit.toNat ((filteredRecords db q).drop q.skip.toNat)
        simp only [List.length_map]
        omega

/-- C1 (witness): the amended theorem at `limit = 2000` (rejected) and at the
default `limit = 50` on a one-record store (one result, within bounds). -/
theorem list_files_limit_validated_witness :
    list_files [] (ListQuery.mk none none none none 2000 0) = Except.error ApiError.validationError ∧
    [toListResponse sampleRecord].length ≤ (50 : Int).toNat :=
  ⟨(list_files_limit_validated [] (ListQuery.mk none none none none 2000 0)).1 (Or.inr (by decide)),
   ((list_files_limit_validated [sampleRecord] (ListQuery.mk none none none none 50 0)).2.1
      [toListResponse sampleRecord] (by decide)).1⟩

/-! ## C2: Upload rejects non-image/video content types before any mutation -/

/-- C2: an Upload whose advertised content type is missing or does not start
with `image/` or `video/` fails with the 400 `InvalidMediaType` error, and the
returned state is exactly the input state: no blob and no record was created. -/
theorem upload_rejects_non_media_without_mutation
    (st : AppState) (blobId recordId : String) (uploadDate : Nat)
    (contentType : Option String) (filename0 : Option String) (content : List Nat)
    (owner_id tags description : Option String)
    (h : ∀ s, contentType = some s →
      startswith s "image/" = false ∧ startswith s "video/" = false) :
    upload_file st blobId recordId uploadDate contentType filename0 content owner_id tags description =
      (Except.error (ApiError.httpError 400 "Only images and videos are allowed"), st) := by
  cases contentType with
  | none => rfl
  | some ct =>
    have hct := h ct rfl
    simp [upload_file, hct.1, hct.2]

/-- C2 (witness): uploading with content type `text/plain` onto a non-empty
store fails with 400 and leaves both stores untouched. -/
theorem upload_rejects_non_media_without_mutation_witness :
    upload_file (AppState.mk [sampleBlob] [sampleRecord]) "b1" "r1" 3 (some "text/plain")
        (some "notes.txt") [1, 2] (some "alice") (some "a") (some "desc") =
      (Except.error (ApiError.httpError 400 "Only images and videos are allowed"),
        AppState.mk [sampleBlob] [sampleRecord]) :=
  upload_rejects_non_media_without_mutation _ _ _ _ _ _ _ _ _ _
    (by intro s hs; injection hs with h; subst h; exact ⟨by decide, by decide⟩)

/-! ## C3: the contentTypePrefix filter -/

/-- On a pattern which contains no `.` metacharacter, the anchored
case-insensitive regex accepts exactly the subjects of which the pattern is a
case-insensitive literal prefix. -/
theorem ciRegexAcceptsFrom_no_dot :
    ∀ (ps cs : List Char), (∀ c ∈ ps, c ≠ '.') →
      ciRegexAcceptsFrom ps cs =
        (ps.map Char.toLower).isPrefixOf (cs.map Char.toLower) := by
  intro ps
  induction ps with
  | nil => intro cs _; cases cs <;> rfl
  | cons p ps ih =>
    intro cs h
    cases cs with
    | nil => rfl
    | cons c cs =>
      have hp : p ≠ '.' := h p (List.mem_cons_self p ps)
      have hps : ∀ x ∈ ps, x ≠ '.' := fun x hx => h x (List.mem_cons_of_mem p hx)
      simp only [ciRegexAcceptsFrom, List.map_cons, List.isPrefixOf, ih cs hps]
      congr 1
      simp [ciRegexCharMatches, hp]

/-- C3 (counterexample): with filter parameter `"a."`, List returns the record
whose contentType is `"ab"`, although `"ab"` does not start with the literal
prefix `"a."` (even case-insensitively): the parameter is interpreted as a
regex, where `.` matches any character. -/
theorem content_type_filter_dot_not_literal :
    list_files [dotRecord] (ListQuery.mk none none (some "a.") none 50 0) =
      Except.ok [toListResponse dotRecord] ∧
    ("a.".data.map Char.toLower).isPrefixOf (dotRecord.content_type.data.map Char.toLower) = false := by
  decide

/-- C3 (amended): the contentTypePrefix filter interpolates the raw parameter
into an anchored case-insensitive regex; for every parameter containing no
regex metacharacter, a record is kept by the filter exactly when its
contentType starts with the parameter, compared case-insensitively. -/
theorem content_type_filter_regex_semantics
    (db : List GridFSFile) (p : String) (r : GridFSFile)
    (hm : ∀ c ∈ p.data, isRegexMeta c = false) :
    r ∈ filteredRecords db (ListQuery.mk none none (some p) none 50 0) ↔
      r ∈ db ∧ (p.data.map Char.toLower).isPrefixOf (r.content_type.data.map Char.toLower) = true := by
  have hdot : ∀ c ∈ p.data, c ≠ '.' := by
    intro c hc heq
    have hmeta := hm c hc
    rw [heq] at hmeta
    exact absurd hmeta (by decide)
  have hpred : ∀ x : GridFSFile,
      matchesQuery (ListQuery.mk none none (some p) none 50 0) x =
        (p.data.map Char.toLower).isPrefixOf (x.content_type.data.map Char.toLower) := by
    intro x
    simp only [matchesQuery, matchesOwner, matchesStatus, matchesContentType, matchesTags,
      Bool.true_and, Bool.and_true]
    by_cases hp : p.data.isEmpty
    · rw [List.isEmpty_iff] at hp
      simp [hp]
    · simp only [hp, if_false, Bool.false_eq_true]
      exact ciRegexAcceptsFrom_no_dot p.data x.content_type.data hdot
  unfold filteredRecords
  rw [List.mem_filter, hpred r]

/-- C3 (witness): the amended theorem at the metacharacter-free parameter
`"image/"`, matching `sampleRecord` whose contentType is `"image/png"`. -/
theorem content_type_filter_regex_semantics_witness :
    sampleRecord ∈ filteredRecords [sampleRecord] (ListQuery.mk none none (some "image/") none 50 0) :=
  (content_type_filter_regex_semantics [sampleRecord] "image/" sampleRecord (by decide)).mpr (by decide)

/-! ## Helper lemmas on single-document store operations -/

/-- If `find?` locates `r` and `f` preserves the predicate on `r`, then after
updating the first match the located document is `f r`. -/
theorem find?_updateFirst {α : Type} (p : α → Bool) (f : α → α) :
    ∀ (l : List α) (r : α), l.find? p = some r → p (f r) = true →
      (updateFirst p f l).find? p = some (f r) := by
  intro l
  induction l with
  | nil => intro r h _; cases h
  | cons x xs ih =>
    intro r h hf
    by_cases hx : p x = true
    · rw [List.find?_cons_of_pos _ hx] at h
      injection h with h
      subst h
      simp only [updateFirst, hx, if_true]
      exact List.find?_cons_of_pos _ hf
    · have hx' : ¬ p x := hx
      rw [List.find?_cons_of_neg _ hx'] at h
      simp only [updateFirst, Bool.not_eq_true] at hx
      simp only [updateFirst, hx, Bool.false_eq_true, if_false]
      rw [List.find?_cons_of_neg _ hx']
      exact ih r h hf

/-- If at most one document matches, removing the first match leaves no
matching document. -/
theorem find?_removeFirst {α : Type} (p : α → Bool) :
    ∀ l : List α, (l.filter p).length ≤ 1 → (removeFirst p l).find? p = none := by
  intro l
  induction l with
  | nil => intro _; rfl
  | cons x xs ih =>
    intro h
    by_cases hx : p x = true
    · simp only [removeFirst, hx, if_true]
      rw [List.filter_cons_of_pos hx] at h
      have hlen : (xs.filter p).length = 0 := by
        simp only [List.length_cons] at h
        omega
      have hnil : xs.filter p = [] := List.length_eq_zero.mp hlen
      rw [List.find?_eq_none]
      intro a ha hpa
      have : a ∈ xs.filter p := List.mem_filter.mpr ⟨ha, hpa⟩
      rw [hnil] at this
      cases this
    · have hx' : ¬ p x := hx
      simp only [removeFirst, Bool.not_eq_true] at hx
      simp only [removeFirst, hx, Bool.false_eq_true, if_false]
      rw [List.find?_cons_of_neg _ hx']
      rw [List.filter_cons_of_neg hx'] at h
      exact ih h

/-- Shape of a successful `PUT /files/{id}`: the response carries the updated
record and the collection holds it in place of the old one. -/
theorem update_file_eq (st : AppState) (fid : String) (u : FileUpdateRequest)
    (r : GridFSFile) (hv : isValidObjectId fid = true) (hf : findRecord st fid = some r) :
    update_file st fid u =
      (Except.ok (toListResponse (applyUpdate u r)),
        { st with records := updateFirst (fun x => x.file_id == fid) (fun x => applyUpdate u x) st.records }) := by
  simp [update_file, hv, hf]

/-- After a successful update, looking the id up again yields the record with
the `$set` applied. -/
theorem findRecord_after_update (st : AppState) (fid : String) (u : FileUpdateRequest)
    (r : GridFSFile) (hv : isValidObjectId fid = true) (hf : findRecord st fid = some r) :
    findRecord (update_file st fid u).2 fid = some (applyUpdate u r) := by
  rw [update_file_eq st fid u r hv hf]
  unfold findRecord at hf ⊢
  have hp : (fun x : GridFSFile => x.file_id == fid) (applyUpdate u r) = true :=
    @List.find?_some GridFSFile (fun x : GridFSFile => x.file_id == fid) r st.records hf
  exact find?_updateFirst (fun x : GridFSFile => x.file_id == fid)
    (fun x => applyUpdate u x) st.records r hf hp

/-! ## C4: partial-update frame of `PUT /files/{id}` -/

/-- C4: Update applies exactly the supplied fields: the stored result is
`applyUpdate u r`, in which each of status/tags/description keeps its previous
value when absent from the request and takes the supplied value when present,
while `file_id` (blobId), `filename`, `file_size`, `upload_date` — and also
`id`, `owner_id` and `metadata` — are never changed; the blob store is
untouched. -/
theorem update_file_partial_frame
    (st : AppState) (fid : String) (u : FileUpdateRequest) (r : GridFSFile)
    (hv : isValidObjectId fid = true) (hf : findRecord st fid = some r) :
    (update_file st fid u).1 = Except.ok (toListResponse (applyUpdate u r)) ∧
    findRecord (update_file st fid u).2 fid = some (applyUpdate u r) ∧
    (update_file st fid u).2.blobs = st.blobs ∧
    (u.status = none → (applyUpdate u r).status = r.status) ∧
    (u.tags = none → (applyUpdate u r).tags = r.tags) ∧
    (u.description = none → (applyUpdate u r).description = r.description) ∧
    (∀ s, u.status = some s → (applyUpdate u r).status = s) ∧
    (∀ tg, u.tags = some tg → (applyUpdate u r).tags = tg) ∧
    (∀ d, u.description = some d → (applyUpdate u r).description = some d) ∧
    (applyUpdate u r).file_id = r.file_id ∧
    (applyUpdate u r).filename = r.filename ∧
    (applyUpdate u r).file_size = r.file_size ∧
    (applyUpdate u r).upload_date = r.upload_date ∧
    (applyUpdate u r).id = r.id ∧
    (applyUpdate u r).owner_id = r.owner_id ∧
    (applyUpdate u r).metadata = r.metadata := by
  refine ⟨by rw [update_file_eq st fid u r hv hf],
    findRecord_after_update st fid u r hv hf,
    by rw [update_file_eq st fid u r hv hf],
    ?_, ?_, ?_, ?_, ?_, ?_, rfl, rfl, rfl, rfl, rfl, rfl, rfl⟩
  · intro h; simp [applyUpdate, h]
  · intro h; simp [applyUpdate, h]
  · intro h; simp [applyUpdate, h]
  · intro s h; simp [applyUpdate, h]
  · intro tg h; simp [applyUpdate, h]
  · intro d h; simp [applyUpdate, h]

/-- C4 (witness): updating `sampleRecord` with only `tags` supplied stores the
record with the new tags and the old status and description. -/
theorem update_file_partial_frame_witness :
    findRecord (update_file (AppState.mk [sampleBlob] [sampleRecord]) sampleId tagsOnlyUpdate).2 sampleId =
      some (applyUpdate tagsOnlyUpdate sampleRecord) ∧
    (applyUpdate tagsOnlyUpdate sampleRecord).status = sampleRecord.status ∧
    (applyUpdate tagsOnlyUpdate sampleRecord).description = sampleRecord.description ∧
    (applyUpdate tagsOnlyUpdate sampleRecord).tags = ["x", "y"] ∧
    (applyUpdate tagsOnlyUpdate sampleRecord).file_id = sampleRecord.file_id :=
  have h := update_file_partial_frame (AppState.mk [sampleBlob] [sampleRecord]) sampleId
    tagsOnlyUpdate sampleRecord (by decide) (by decide)
  ⟨h.2.1, h.2.2.2.1 rfl, h.2.2.2.2.2.1 rfl, h.2.2.2.2.2.2.2.1 ["x", "y"] rfl, h.2.2.2.2.2.2.2.2.2.1⟩

/-! ## C9: a null field in an Update is identical to an absent field -/

/-- C9: the pydantic request model gives `Optional[...] = None` fields, so a
JSON `null` and an absent field both parse to `none` and the handler's
`is not None` guards skip them: a `none` field leaves the stored value
unchanged, and consequently no Update can reset `description` back to
null/unset (nor `status` or `tags`, whose stored values are never null). -/
theorem update_null_field_left_unchanged
    (st : AppState) (fid : String) (u : FileUpdateRequest) (r : GridFSFile)
    (hv : isValidObjectId fid = true) (hf : findRecord st fid = some r) :
    findRecord (update_file st fid u).2 fid = some (applyUpdate u r) ∧
    (u.description = none → (applyUpdate u r).description = r.description) ∧
    (u.status = none → (applyUpdate u r).status = r.status) ∧
    (u.tags = none → (applyUpdate u r).tags = r.tags) ∧
    ((applyUpdate u r).description = none → r.description = none) := by
  refine ⟨findRecord_after_update st fid u r hv hf, ?_, ?_, ?_, ?_⟩
  · intro h; simp [applyUpdate, h]
  · intro h; simp [applyUpdate, h]
  · intro h; simp [applyUpdate, h]
  · intro h
    cases hd : u.description with
    | none => rw [applyUpdate] at h; simp only [hd] at h; exact h
    | some d => rw [applyUpdate] at h; simp only [hd] at h; cases h

/-- C9 (witness): a request supplying `description = null` (parsed to `none`)
leaves the stored description `some "d"` unchanged — it is not cleared. -/
theorem update_null_field_left_unchanged_witness :
    findRecord (update_file (AppState.mk [sampleBlob] [sampleRecord]) sampleId
        (FileUpdateRequest.mk (some FileStatus.FLAGGED) none none)).2 sampleId =
      some (applyUpdate (FileUpdateRequest.mk (some FileStatus.FLAGGED) none none) sampleRecord) ∧
    (applyUpdate (FileUpdateRequest.mk (some FileStatus.FLAGGED) none none) sampleRecord).description =
      sampleRecord.description :=
  have h := update_null_field_left_unchanged (AppState.mk [sampleBlob] [sampleRecord]) sampleId
    (FileUpdateRequest.mk (some FileStatus.FLAGGED) none none) sampleRecord (by decide) (by decide)
  ⟨h.1, h.2.1 rfl⟩

/-! ## C5: the tags filter -/

/-- C5 (counterexample): with the tags filter `","`, the parsed tag set is
empty, so `sampleRecord` (tags `["a"]`) intersects it in nothing — yet List
returns it: the `if tag_list:` guard (main.py 315) silently drops an
all-empty filter instead of matching no record. -/
theorem tags_filter_empty_set_matches_all :
    parseTags "," = [] ∧
    list_files [sampleRecord] (ListQuery.mk none none none (some ",") 50 0) =
      Except.ok [toListResponse sampleRecord] ∧
    sampleRecord.tags.any (fun tag => (parseTags ",").contains tag) = false := by
  decide

/-- C5 (amended): when the comma-split, trimmed, empties-dropped tag set is
non-empty, a record is kept by the filter exactly when its tag list contains
at least one filter tag (logical OR); when the parsed set is empty (a filter
of only commas and whitespace), the tags filter is dropped and every record
is kept. -/
theorem tags_filter_or_semantics
    (db : List GridFSFile) (t : String) (r : GridFSFile) :
    (parseTags t ≠ [] →
      (r ∈ filteredRecords db (ListQuery.mk none none none (some t) 50 0) ↔
        r ∈ db ∧ r.tags.any (fun tag => (parseTags t).contains tag) = true)) ∧
    (parseTags t = [] →
      (r ∈ filteredRecords db (ListQuery.mk none none none (some t) 50 0) ↔ r ∈ db)) := by
  constructor
  · intro hne
    have hdata : t.data.isEmpty = false := by
      cases hd : t.data with
      | nil =>
        exfalso
        apply hne
        unfold parseTags
        rw [hd]
        rfl
      | cons a l => rfl
    have hpe : (parseTags t).isEmpty = false := by
      cases hp : parseTags t with
      | nil => exact absurd hp hne
      | cons a l => rfl
    have hpred : ∀ x : GridFSFile,
        matchesQuery (ListQuery.mk none none none (some t) 50 0) x =
          x.tags.any (fun tag => (parseTags t).contains tag) := by
      intro x
      simp [matchesQuery, matchesOwner, matchesStatus, matchesContentType, matchesTags,
        hdata, hpe]
    unfold filteredRecords
    rw [List.mem_filter, hpred r]
  · intro hnil
    have hpred : ∀ x : GridFSFile,
        matchesQuery (ListQuery.mk none none none (some t) 50 0) x = true := by
      intro x
      by_cases hdata : t.data.isEmpty
      · simp [matchesQuery, matchesOwner, matchesStatus, matchesContentType, matchesTags, hdata]
      · simp [matchesQuery, matchesOwner, matchesStatus, matchesContentType, matchesTags,
          hdata, hnil]
    unfold filteredRecords
    rw [List.mem_filter, hpred r]
    simp

/-- C5 (witness): the amended theorem at the non-empty filter `"a,b"`
(matching `sampleRecord` by its tag `"a"`) and at the all-commas filter
`" , "` (matching every record). -/
theorem tags_filter_or_semantics_witness :
    sampleRecord ∈ filteredRecords [sampleRecord] (ListQuery.mk none none none (some "a,b") 50 0) ∧
    sampleRecord ∈ filteredRecords [sampleRecord] (ListQuery.mk none none none (some " , ") 50 0) :=
  ⟨((tags_filter_or_semantics [sampleRecord] "a,b" sampleRecord).1 (by decide)).mpr (by decide),
   ((tags_filter_or_semantics [sampleRecord] " , " sampleRecord).2 (by decide)).mpr (by decide)⟩

/-! ## C6: soft delete -/

/-- C6: soft Delete of an existing record reports success, leaves the blob
store untouched, and stores the record with `status = deleted` and every
other field unchanged; GetInfo then returns the record with
`status = deleted`, and Download is unaffected (it still succeeds whenever
the blob is present). -/
theorem soft_delete_retains_record_and_blob
    (st : AppState) (fid : String) (blobOk : Bool) (r : GridFSFile)
    (hv : isValidObjectId fid = true) (hf : findRecord st fid = some r) :
    (delete_file st fid false blobOk).1 =
      Except.ok (DeleteResponse.mk "File marked as deleted" fid (some "deleted")) ∧
    (delete_file st fid false blobOk).2.blobs = st.blobs ∧
    findRecord (delete_file st fid false blobOk).2 fid =
      some { r with status := FileStatus.DELETED } ∧
    get_file_info (delete_file st fid false blobOk).2 fid =
      Except.ok (toListResponse { r with status := FileStatus.DELETED }) ∧
    get_file (delete_file st fid false blobOk).2 fid = get_file st fid ∧
    (∀ b, st.blobs.find? (fun x => x.id == fid) = some b →
      ∃ resp, get_file st fid = Except.ok resp) := by
  have hd : delete_file st fid false blobOk =
      (Except.ok (DeleteResponse.mk "File marked as deleted" fid (some "deleted")),
        { st with records := (updateFirst (fun x => x.file_id == fid)
            (fun x => { x with status := FileStatus.DELETED }) st.records) }) := by
    simp [delete_file, hv, hf]
  have hfind : findRecord (delete_file st fid false blobOk).2 fid =
      some { r with status := FileStatus.DELETED } := by
    rw [hd]
    unfold findRecord at hf ⊢
    have hp : (fun x : GridFSFile => x.file_id == fid) { r with status := FileStatus.DELETED } = true :=
      @List.find?_some GridFSFile (fun x : GridFSFile => x.file_id == fid) r st.records hf
    exact find?_updateFirst (fun x : GridFSFile => x.file_id == fid)
      (fun x => { x with status := FileStatus.DELETED }) st.records r hf hp
  refine ⟨by rw [hd], by rw [hd], hfind, ?_, by rw [hd]; rfl, ?_⟩
  · simp [get_file_info, hv, hfind]
  · intro b hb
    refine ⟨FileDownloadResponse.mk (contentDisposition (orDefault (some b.filename) "file"))
      "bytes" b.length "public, max-age=3600"
      (match b.metadata with
        | some m => m.content_type.getD "video/mp4"
        | none => "video/mp4"), ?_⟩
    simp [get_file, hv, hb]

/-- C6 (witness): the soft-delete scenario on the one-record, one-blob store:
GetInfo sees `status = deleted` and Download still succeeds. -/
theorem soft_delete_retains_record_and_blob_witness :
    get_file_info (delete_file (AppState.mk [sampleBlob] [sampleRecord]) sampleId false true).2 sampleId =
      Except.ok (toListResponse { sampleRecord with status := FileStatus.DELETED }) ∧
    ∃ resp, get_file (AppState.mk [sampleBlob] [sampleRecord]) sampleId = Except.ok resp :=
  have h := soft_delete_retains_record_and_blob (AppState.mk [sampleBlob] [sampleRecord]) sampleId
    true sampleRecord (by decide) (by decide)
  ⟨h.2.2.2.1, h.2.2.2.2.2 sampleBlob (by decide)⟩

/-! ## C7: permanent delete -/

/-- C7: permanent Delete of an existing record reports success whether or not
the blob deletion succeeds (the failure is swallowed and logged); in both
cases the record is removed (provided `file_id` is unique in the collection,
as upload guarantees), so GetInfo then fails with 404 NotFound; when the blob
deletion succeeds the blob is gone as well and Download fails with 404. -/
theorem permanent_delete_removes_record
    (st : AppState) (fid : String) (blobOk : Bool) (r : GridFSFile)
    (hv : isValidObjectId fid = true) (hf : findRecord st fid = some r)
    (huniq : (st.records.filter (fun x => x.file_id == fid)).length ≤ 1) :
    (delete_file st fid true blobOk).1 =
      Except.ok (DeleteResponse.mk "File permanently deleted" fid none) ∧
    findRecord (delete_file st fid true blobOk).2 fid = none ∧
    get_file_info (delete_file st fid true blobOk).2 fid =
      Except.error (ApiError.httpError 404 "File not found") ∧
    (blobOk = true →
      (delete_file st fid true blobOk).2.blobs.find? (fun b => b.id == fid) = none) ∧
    (blobOk = true →
      get_file (delete_file st fid true blobOk).2 fid =
        Except.error (ApiError.httpError 404 "File Not Found in GridFS")) := by
  have hd : delete_file st fid true blobOk =
      (Except.ok (DeleteResponse.mk "File permanently deleted" fid none),
        AppState.mk (if blobOk then st.blobs.filter (fun b => !(b.id == fid)) else st.blobs)
          (removeFirst (fun x => x.file_id == fid) st.records)) := by
    simp [delete_file, hv, hf]
  have hfind : findRecord (delete_file st fid true blobOk).2 fid = none := by
    rw [hd]
    unfold findRecord
    exact find?_removeFirst (fun x : GridFSFile => x.file_id == fid) st.records huniq
  have hblob : blobOk = true →
      (delete_file st fid true blobOk).2.blobs.find? (fun b => b.id == fid) = none := by
    intro hb
    rw [hd, hb]
    simp only [if_true]
    rw [List.find?_eq_none]
    intro x hx hpx
    have hmem := List.mem_filter.mp hx
    rw [hpx] at hmem
    exact absurd hmem.2 (by decide)
  refine ⟨by rw [hd], hfind, ?_, hblob, ?_⟩
  · simp [get_file_info, hv, hfind]
  · intro hb
    simp [get_file, hv, hblob hb]

/-- C7 (witness): the permanent-delete scenario with a failing blob deletion:
the operation still reports success and GetInfo afterwards fails with 404. -/
theorem permanent_delete_removes_record_witness :
    (delete_file (AppState.mk [sampleBlob] [sampleRecord]) sampleId true false).1 =
      Except.ok (DeleteResponse.mk "File permanently deleted" sampleId none) ∧
    get_file_info (delete_file (AppState.mk [sampleBlob] [sampleRecord]) sampleId true false).2 sampleId =
      Except.error (ApiError.httpError 404 "File not found") :=
  have h := permanent_delete_removes_record (AppState.mk [sampleBlob] [sampleRecord]) sampleId
    false sampleRecord (by decide) (by decide) (by decide)
  ⟨h.1, h.2.2.1⟩

/-! ## C8: Content-Disposition filename encoding of `GET /files/{id}` -/

/-- C8: on a successful Download of a blob with a non-empty stored filename,
the Content-Disposition is `attachment; filename=<filename>` with the
filename passed through unescaped when every character is ASCII, and
`attachment; filename*=UTF-8''<percent-encoded UTF-8 bytes>` (RFC 5987)
when any character is non-ASCII. -/
theorem download_content_disposition_encoding
    (st : AppState) (fid : String) (b : GridFSBlob) (resp : FileDownloadResponse)
    (hv : isValidObjectId fid = true)
    (hb : st.blobs.find? (fun x => x.id == fid) = some b)
    (hne : b.filename.data.isEmpty = false)
    (hresp : get_file st fid = Except.ok resp) :
    ((∀ c ∈ b.filename.data, c.toNat < 128) →
      resp.content_disposition = "attachment; filename=" ++ b.filename) ∧
    ((¬ ∀ c ∈ b.filename.data, c.toNat < 128) →
      resp.content_disposition = "attachment; filename*=UTF-8''" ++ percentEncodeUTF8 b.filename) := by
  have hget : get_file st fid = Except.ok
      (FileDownloadResponse.mk (contentDisposition (orDefault (some b.filename) "file"))
        "bytes" b.length "public, max-age=3600"
        (match b.metadata with
          | some m => m.content_type.getD "video/mp4"
          | none => "video/mp4")) := by
    simp [get_file, hv, hb]
  have hcd : resp.content_disposition = contentDisposition b.filename := by
    rw [hget] at hresp
    injection hresp with h
    rw [← h]
    simp [orDefault, hne]
  constructor
  · intro hall
    have hb' : b.filename.data.all (fun c => c.toNat < 128) = true := by
      rw [List.all_eq_true]
      intro c hc
      exact decide_eq_true (hall c hc)
    rw [hcd]
    simp [contentDisposition, hb']
  · intro hnot
    have hb' : b.filename.data.all (fun c => c.toNat < 128) = false := by
      by_contra hx
      apply hnot
      have hb'' : b.filename.data.all (fun c => c.toNat < 128) = true := by
        cases hbb : b.filename.data.all (fun c => c.toNat < 128)
        · exact absurd hbb hx
        · rfl
      rw [List.all_eq_true] at hb''
      intro c hc
      exact of_decide_eq_true (hb'' c hc)
    rw [hcd]
    simp [contentDisposition, hb']

/-- C8 (witness): the theorem at the pure-ASCII filename `"photo.png"`
(passed through unescaped) and at `"café.png"` (RFC 5987 encoded, the
spec scenario). -/
theorem download_content_disposition_encoding_witness :
    (FileDownloadResponse.mk "attachment; filename=photo.png" "bytes" 10
        "public, max-age=3600" "image/png").content_disposition =
      "attachment; filename=" ++ sampleBlob.filename ∧
    (FileDownloadResponse.mk "attachment; filename*=UTF-8''caf%C3%A9.png" "bytes" 10
        "public, max-age=3600" "image/png").content_disposition =
      "attachment; filename*=UTF-8''" ++ percentEncodeUTF8 accentBlob.filename :=
  ⟨(download_content_disposition_encoding (AppState.mk [sampleBlob] []) sampleId sampleBlob
      (FileDownloadResponse.mk "attachment; filename=photo.png" "bytes" 10
        "public, max-age=3600" "image/png")
      (by decide) (by decide) (by decide) (by decide)).1 (by decide),
   (download_content_disposition_encoding (AppState.mk [accentBlob] []) sampleId accentBlob
      (FileDownloadResponse.mk "attachment; filename*=UTF-8''caf%C3%A9.png" "bytes" 10
        "public, max-age=3600" "image/png")
      (by decide) (by decide) (by decide) (by decide)).2
     (by intro hall; exact absurd (hall 'é' (by decide)) (by decide))⟩

/-! ## C10: List does not exclude soft-deleted records by default -/

/-- C10: with no status filter supplied, a soft-deleted record satisfying the
owner/contentType/tags filter clauses is kept by the filter query, and — for
any in-range pagination wide enough to reach it — appears in the result of
`GET /files`. -/
theorem list_includes_soft_deleted
    (db : List GridFSFile) (q : ListQuery) (r : GridFSFile)
    (hstatus : q.status = none) (hr : r ∈ db) (_hdel : r.status = FileStatus.DELETED)
    (ho : matchesOwner q r = true) (hct : matchesContentType q r = true)
    (ht : matchesTags q r = true) :
    r ∈ filteredRecords db q ∧
    (q.skip = 0 → 1 ≤ q.limit → q.limit ≤ 1000 →
      (filteredRecords db q).length ≤ q.limit.toNat →
      list_files db q = Except.ok ((filteredRecords db q).map toListResponse) ∧
      toListResponse r ∈ (filteredRecords db q).map toListResponse) := by
  have hmem : r ∈ filteredRecords db q := by
    unfold filteredRecords
    rw [List.mem_filter]
    refine ⟨hr, ?_⟩
    unfold matchesQuery
    rw [ho, hct, ht]
    simp [matchesStatus, hstatus]
  refine ⟨hmem, ?_⟩
  intro hskip hl1 hl2 hlen
  constructor
  · have hcond : (decide (q.limit < 1) || decide (1000 < q.limit) || decide (q.skip < 0)) = false := by
      simp only [Bool.or_eq_false_iff, decide_eq_false_iff_not]
      omega
    simp only [list_files, hcond, Bool.false_eq_true, if_false]
    rw [hskip]
    simp only [Int.toNat_zero, List.drop_zero]
    rw [List.take_of_length_le hlen]
  · exact List.mem_map_of_mem toListResponse hmem

/-- C10 (witness): a soft-deleted record is returned by a default List
request (no filters, default pagination). -/
theorem list_includes_soft_deleted_witness :
    deletedRecord ∈ filteredRecords [deletedRecord] (ListQuery.mk none none none none 50 0) ∧
    toListResponse deletedRecord ∈
      (filteredRecords [deletedRecord] (ListQuery.mk none none none none 50 0)).map toListResponse :=
  have h := list_includes_soft_deleted [deletedRecord] (ListQuery.mk none none none none 50 0)
    deletedRecord rfl (by decide) (by decide) (by decide) (by decide) (by decide)
  ⟨h.1, (h.2 rfl (by decide) (by decide) (by decide)).2⟩

end MediaApi
